import Mathlib

/-!
Verification of the live-dashboard program in
`src/streamlit/pages/App_Pasteurization.py` (a Streamlit page that consumes a
server-sent-events endpoint and plots a bounded window of samples).

Shallow embedding notes:
* Byte strings (`bytes` lines from `iter_lines`) are modelled as `List Char`;
  `decode("utf-8")` is the identity under this identification.
* `json.loads` is an external library call; the decoder definitions are
  parametrised by an abstract payload parser `parse : List Char → Option J`
  that returns `none` exactly on `JSONDecodeError`.
* A pandas `DataFrame` accumulated row by row is modelled as a `List` of rows;
  `pd.concat([df, pd.DataFrame([sample])], ignore_index=True)` is
  `df ++ [sample]` and `df.iloc[-k:]` is `ilocLast k df` below (including the
  Python quirk that `iloc[-0:]` is the whole frame).
* matplotlib calls are modelled by the `Panel` record: one panel per sensor
  with its x-data, y-data, title, y-limits, grid flag and legend label.
-/

/-- The five-byte marker `b"data:"` used in `line.startswith(b"data:")`. -/
def marker5 : List Char := ['d', 'a', 't', 'a', ':']

/-- The six-byte pattern `b"data: "` used in `line.replace(b"data: ", b"")`. -/
def markerSp : List Char := ['d', 'a', 't', 'a', ':', ' ']

/-- `leadsWith p s` holds when the list `p` is an initial segment of `s`
(Python `s.startswith(p)`). -/
def leadsWith : List Char → List Char → Bool
  | [], _ => true
  | _ :: _, [] => false
  | p :: ps, c :: cs => p == c && leadsWith ps cs

/-- `occursIn pat s` holds when `pat` occurs as a contiguous substring of `s`
(Python `pat in s`). -/
def occursIn (pat : List Char) : List Char → Bool
  | [] => leadsWith pat []
  | c :: rest => leadsWith pat (c :: rest) || occursIn pat rest

/-- Fuel-indexed worker for `removeMarkerAll`; the fuel is an upper bound on
the number of recursion steps and is irrelevant once it reaches the length of
the input. -/
def removeMarkerAllF : Nat → List Char → List Char
  | 0, s => s
  | _ + 1, [] => []
  | fuel + 1, c :: rest =>
      if leadsWith markerSp (c :: rest) then
        removeMarkerAllF fuel ((c :: rest).drop 6)
      else
        c :: removeMarkerAllF fuel rest

/-- Python `line.replace(b"data: ", b"")`: removes every (left-to-right,
non-overlapping) occurrence of the six-byte pattern `b"data: "`. -/
def removeMarkerAll (s : List Char) : List Char :=
  removeMarkerAllF s.length s

/-- Lines 78–79 of the source: `if line and line.startswith(b"data:")`
guards the line, and the payload handed to `json.loads` is
`line.replace(b"data: ", b"").decode("utf-8")`.  Returns `none` for lines the
generator ignores, `some payload` for lines whose payload is parsed. -/
def payloadOfLine (l : List Char) : Option (List Char) :=
  if !l.isEmpty && leadsWith marker5 l then some (removeMarkerAll l) else none

/-- One line of the generator body: the payload (if the line is accepted) is
parsed; `parse` returning `none` models `json.JSONDecodeError`, on which the
generator `continue`s. -/
def decodeLine {J : Type} (parse : List Char → Option J) (l : List Char) :
    Option J :=
  (payloadOfLine l).bind parse

/-- The `stream_data` generator of the source restricted to a finite list of
delivered lines and no transport failure: for each line in order, yield the
decoded payload when the line carries the marker and parses, else move on. -/
def stream_data {J : Type} (parse : List Char → Option J) :
    List (List Char) → List J
  | [] => []
  | l :: rest =>
      match decodeLine parse l with
      | some j => j :: stream_data parse rest
      | none => stream_data parse rest

/-- What the transport hands to the generator, one event at a time: either a
delivered line, or an exception raised by `requests` / `iter_lines`
(connection failure, reset, timeout), carrying its message. -/
inductive NetEvent where
  | line (l : List Char)
  | err (msg : List Char)
deriving DecidableEq

/-- The message `st.error` displays in the `except` branch of `stream_data`:
`f"Stream error: {e}"`. -/
def streamErrorMsg (m : List Char) : List Char :=
  ['S', 't', 'r', 'e', 'a', 'm', ' ', 'e', 'r', 'r', 'o', 'r', ':', ' '] ++ m

/-- The `err` payload of a transport event, `none` for delivered lines. -/
def NetEvent.errMsg : NetEvent → Option (List Char)
  | .line _ => none
  | .err m => some m

/-- The delivered line of a transport event, `none` for failures. -/
def NetEvent.lineOf : NetEvent → Option (List Char)
  | .line l => some l
  | .err _ => none

/-- The whole `stream_data` generator (lines 73–85 of the source): the
`try`/`except Exception` wraps the entire loop, so the first raised transport
exception ends the generator after reporting `Stream error: …` via
`st.error`; lines before it are processed normally.  Result: the list of
yielded samples and the optional UI error message. -/
def streamRun {J : Type} (parse : List Char → Option J) :
    List NetEvent → List J × Option (List Char)
  | [] => ([], none)
  | NetEvent.err m :: _ => ([], some (streamErrorMsg m))
  | NetEvent.line l :: rest =>
      match decodeLine parse l with
      | some j =>
          let r := streamRun parse rest
          (j :: r.1, r.2)
      | none => streamRun parse rest

/-- Pandas `df.iloc[-k:]` on a frame of `df.length` rows: the last `k` rows,
except that `k = 0` yields the whole frame (`iloc[-0:]` is `iloc[0:]`). -/
def ilocLast {α : Type} (k : Nat) (df : List α) : List α :=
  if k = 0 then df else df.drop (df.length - k)

/-- Lines 103–109 of the source, one iteration of the window bookkeeping:
`df = pd.concat([df, pd.DataFrame([sample])], ignore_index=True)` then
`if len(df) > MAX_POINTS: df = df.iloc[-MAX_POINTS:]`. -/
def appendTrim {α : Type} (maxPoints : Nat) (df : List α) (sample : α) :
    List α :=
  let df1 := df ++ [sample]
  if df1.length > maxPoints then ilocLast maxPoints df1 else df1

/-- One decoded record: a JSON object whose fields are a subset of
`timestamp` plus the nine fixed sensor channels; a field absent from the
payload is absent (NaN) in the DataFrame row.  The scenario values in the
spec are integers, so values are modelled as `Int`. -/
structure Sample where
  timestamp : Option Int
  T : Option Int
  pH : Option Int
  Kappa : Option Int
  Mu : Option Int
  Tau : Option Int
  Q_in : Option Int
  Q_out : Option Int
  P : Option Int
  dTdt : Option Int
deriving DecidableEq

/-- A sample with every field absent (an all-NaN row). -/
def Sample.empty : Sample :=
  ⟨none, none, none, none, none, none, none, none, none, none⟩

/-- Lines 47–58 of the source: the `Y_RANGES` dict, in insertion order,
mapping each sensor name to its fixed y-axis `(min, max)`. -/
def Y_RANGES : List (String × ℚ × ℚ) :=
  [("T", (0, 80)),
   ("pH", (6.0, 7.2)),
   ("Kappa", (4.0, 5.5)),
   ("Mu", (1.4, 2.4)),
   ("Tau", (0.0, 1.5)),
   ("Q_in", (0.0, 2.0)),
   ("Q_out", (0.0, 2.0)),
   ("P", (0.8, 1.6)),
   ("dTdt", (-1.0, 1.0))]

/-- `SENSORS = list(Y_RANGES.keys())`: the nine channel names in the dict's
insertion order. -/
def SENSORS : List String := Y_RANGES.map (fun p => p.1)

/-- Column access `df[sensor]` on one row: the row's value for the named
channel (`none` when the name is not a channel of the frame). -/
def channelValue (s : String) (r : Sample) : Option Int :=
  if s = "T" then r.T
  else if s = "pH" then r.pH
  else if s = "Kappa" then r.Kappa
  else if s = "Mu" then r.Mu
  else if s = "Tau" then r.Tau
  else if s = "Q_in" then r.Q_in
  else if s = "Q_out" then r.Q_out
  else if s = "P" then r.P
  else if s = "dTdt" then r.dTdt
  else none

/-- Dict lookup `Y_RANGES[sensor]` (total on the nine sensor names, which is
the only way the source uses it). -/
def rangeFor (s : String) : ℚ × ℚ :=
  ((Y_RANGES.find? (fun p => p.1 = s)).map (fun p => p.2)).getD (0, 0)

/-- One axes of the 3×3 figure, recording the observable effects of lines
115–121 of the source: `ax.plot(df["timestamp"], df[sensor], label=sensor)`,
`ax.set_title(sensor)`, `ax.set_ylim(Y_RANGES[sensor])`, `ax.grid(True, …)`,
`ax.legend(…)`. -/
structure Panel where
  xdata : List (Option Int)
  ydata : List (Option Int)
  title : String
  ylo : ℚ
  yhi : ℚ
  grid : Bool
  legend : String
deriving DecidableEq

/-- The panel drawn for one sensor from the current frame. -/
def mkPanel (df : List Sample) (s : String) : Panel :=
  { xdata := df.map Sample.timestamp
    ydata := df.map (channelValue s)
    title := s
    ylo := (rangeFor s).1
    yhi := (rangeFor s).2
    grid := true
    legend := s }

/-- Lines 112–121 of the source: one render of the 3×3 grid, one panel per
sensor in `SENSORS` order. -/
def mkGrid (df : List Sample) : List Panel :=
  SENSORS.map (mkPanel df)

/-- The observable steps of one iteration of the live plotting loop. -/
inductive LoopAction (α : Type) where
  | appendRow (s : α)
  | trimTo (n : Nat)
  | render (df : List α)
  | pause (secs : ℚ)
deriving DecidableEq

/-- Lines 102–127 of the source: the `for sample in data_gen:` loop over the
already-decoded samples.  Each iteration appends the sample, trims to
`MAX_POINTS`, renders the grid from the trimmed frame, sleeps
`REFRESH_INTERVAL`, and proceeds to the next sample.  Returns the emitted
action trace and the final frame held in `st.session_state.data`. -/
def liveLoop {α : Type} (maxPoints : Nat) (refresh : ℚ) :
    List α → List α → List (LoopAction α) × List α
  | df, [] => ([], df)
  | df, s :: rest =>
      let df2 := appendTrim maxPoints df s
      let r := liveLoop maxPoints refresh df2 rest
      (LoopAction.appendRow s :: LoopAction.trimTo maxPoints ::
        LoopAction.render df2 :: LoopAction.pause refresh :: r.1, r.2)

/-- A definition following the words of the spec claim, for comparison with
`payloadOfLine`: blank lines and lines without the `data:` marker yield
nothing, and a marker-carrying line is stripped of exactly the five-character
marker once, the remainder being the payload. -/
def claimPayloadOfLine (l : List Char) : Option (List Char) :=
  if !l.isEmpty && leadsWith marker5 l then some (l.drop 5) else none

/-- A concrete payload parser used to instantiate the abstract `parse` in
witnesses: accepts exactly the non-empty all-digit payloads, as the decimal
number they spell (a stand-in for `json.loads` on integer literals; it fails
on every payload that is not a bare integer, e.g. `[not json`). -/
def digitsToNat : List Char → Nat → Option Nat
  | [], acc => some acc
  | c :: rest, acc =>
      if c.isDigit then digitsToNat rest (acc * 10 + (c.toNat - 48)) else none

/-- See `digitsToNat`. -/
def parseNatPayload (l : List Char) : Option Nat :=
  if l.isEmpty then none else digitsToNat l 0

/-- The three scenario events of the spec, decoded:
`{"timestamp":1,"T":50}`, `{"timestamp":2,"T":52}`, `{"timestamp":3,"T":55}`. -/
def scenarioSample (ts T : Int) : Sample :=
  { Sample.empty with timestamp := some ts, T := some T }

/-! ## Helper lemmas about the marker-removal step -/

theorem leadsWith_append_self (p s : List Char) : leadsWith p (p ++ s) = true := by
  induction p with
  | nil => rfl
  | cons c cs ih => simp [leadsWith, ih]

theorem removeMarkerAllF_of_not_occursIn :
    ∀ (n : Nat) (s : List Char), occursIn markerSp s = false →
      removeMarkerAllF n s = s := by
  intro n
  induction n with
  | zero => intro s _; rfl
  | succ n ih =>
    intro s h
    cases s with
    | nil => rfl
    | cons c rest =>
      simp only [occursIn, Bool.or_eq_false_iff] at h
      simp [removeMarkerAllF, h.1, ih rest h.2]

theorem removeMarkerAllF_step (fuel : Nat) (c : Char) (rest : List Char)
    (h : leadsWith markerSp (c :: rest) = true) :
    removeMarkerAllF (fuel + 1) (c :: rest) =
      removeMarkerAllF fuel ((c :: rest).drop 6) := by
  simp [removeMarkerAllF, h]

theorem removeMarkerAll_markerSp_append (rest : List Char)
    (h : occursIn markerSp rest = false) :
    removeMarkerAll (markerSp ++ rest) = rest := by
  have hlw : leadsWith markerSp (markerSp ++ rest) = true :=
    leadsWith_append_self _ _
  have h1 : removeMarkerAll (markerSp ++ rest) =
      removeMarkerAllF (rest.length + 5 + 1) (markerSp ++ rest) := by
    unfold removeMarkerAll
    congr 1
  have h2 : removeMarkerAllF (rest.length + 5 + 1) (markerSp ++ rest) =
      removeMarkerAllF (rest.length + 5) ((markerSp ++ rest).drop 6) :=
    removeMarkerAllF_step _ 'd' _ hlw
  have h3 : (markerSp ++ rest).drop 6 = rest := rfl
  rw [h1, h2, h3]
  exact removeMarkerAllF_of_not_occursIn _ _ h

/-- Claim C2 (corrected).  For every line received from the transport the
decoder ignores blank lines and lines not starting with the marker `data:`,
yielding no sample for them.  For a marker-carrying line, however, the
payload handed to the JSON parser is the line with every occurrence of the
six-character substring `data: ` removed (Python `replace`), not the line
with exactly the marker stripped once; the two agree whenever the line is
`data: ` followed by a remainder in which `data: ` does not occur again. -/
theorem claim_C2 :
    (∀ l : List Char, l = [] → payloadOfLine l = none) ∧
    (∀ l : List Char, leadsWith marker5 l = false → payloadOfLine l = none) ∧
    (∀ l : List Char, l ≠ [] → leadsWith marker5 l = true →
      payloadOfLine l = some (removeMarkerAll l)) ∧
    (∀ rest : List Char, occursIn markerSp rest = false →
      payloadOfLine (markerSp ++ rest) = some rest) := by
  refine ⟨?_, ?_, ?_, ?_⟩
  · intro l hl; subst hl; rfl
  · intro l hl; simp [payloadOfLine, hl]
  · intro l hne hlw
    have hus : l.isEmpty = false := by
      cases l with
      | nil => exact absurd rfl hne
      | cons c cs => rfl
    simp [payloadOfLine, hus, hlw]
  · intro rest h
    have hlw : leadsWith marker5 (markerSp ++ rest) = true := by
      have : markerSp ++ rest = marker5 ++ (' ' :: rest) := rfl
      rw [this]
      exact leadsWith_append_self _ _
    have hne : (markerSp ++ rest).isEmpty = false := rfl
    simp only [payloadOfLine, hne, hlw, Bool.not_false, Bool.and_self, if_pos]
    rw [removeMarkerAll_markerSp_append rest h]

/-- Witness for `claim_C2` at concrete inputs: the empty line and a
keep-alive comment line produce no sample, and the well-formed event line
`data: 42` (whose payload holds no further occurrence of the marker) is
stripped of exactly the marker prefix. -/
theorem claim_C2_witness :
    payloadOfLine [] = none ∧
    payloadOfLine ": keep-alive".toList = none ∧
    payloadOfLine (markerSp ++ "42".toList) = some "42".toList :=
  ⟨claim_C2.1 [] rfl,
   claim_C2.2.1 ": keep-alive".toList (by decide),
   claim_C2.2.2.2 "42".toList (by decide)⟩

/-- Counterexample to claim C2 as stated: on the line
`data: [1, "data: 2"]` the source's `replace(b"data: ", b"")` also rewrites
the occurrence of `data: ` inside the JSON payload, handing the parser
`[1, "2"]`, whereas stripping exactly the marker prefix would hand it
` [1, "data: 2"]` (and stripping the marker plus one space would hand it
`[1, "data: 2"]`); the parsed samples differ. -/
theorem claim_C2_counterexample :
    payloadOfLine "data: [1, \"data: 2\"]".toList ≠
      claimPayloadOfLine "data: [1, \"data: 2\"]".toList ∧
    payloadOfLine "data: [1, \"data: 2\"]".toList ≠
      some ("data: [1, \"data: 2\"]".toList.drop 6) ∧
    payloadOfLine "data: [1, \"data: 2\"]".toList = some "[1, \"2\"]".toList ∧
    claimPayloadOfLine "data: [1, \"data: 2\"]".toList =
      some " [1, \"data: 2\"]".toList := by
  refine ⟨by decide, by decide, by decide, by decide⟩

/-! ## The decoder over finite line sequences -/

theorem stream_data_eq_filterMap {J : Type} (parse : List Char → Option J) :
    ∀ lines : List (List Char),
      stream_data parse lines = lines.filterMap (decodeLine parse) := by
  intro lines
  induction lines with
  | nil => rfl
  | cons l rest ih =>
    simp only [stream_data, List.filterMap_cons]
    cases decodeLine parse l with
    | none => exact ih
    | some j => simp [ih]

theorem stream_data_all_decoded {J : Type} (parse : List Char → Option J) :
    ∀ (lines : List (List Char)) (samples : List J),
      lines.map (decodeLine parse) = samples.map some →
      stream_data parse lines = samples := by
  intro lines
  induction lines with
  | nil =>
    intro samples h
    cases samples with
    | nil => rfl
    | cons s ss => simp at h
  | cons l rest ih =>
    intro samples h
    cases samples with
    | nil => simp at h
    | cons s ss =>
      simp only [List.map_cons, List.cons.injEq] at h
      simp [stream_data, h.1, ih ss h.2]

/-- Claim C4 (confirmed).  For every finite sequence of event lines, the
emitted sample sequence is exactly the arrival-ordered `filterMap` of the
per-line decode — each line contributes its decoded payload or nothing, with
no reordering — and when every line decodes successfully the output is the
full list of decoded samples, preserving order and count; only lines whose
decode fails are missing. -/
theorem claim_C4 (J : Type) (parse : List Char → Option J)
    (lines : List (List Char)) :
    stream_data parse lines = lines.filterMap (decodeLine parse) ∧
    ∀ samples : List J,
      lines.map (decodeLine parse) = samples.map some →
      stream_data parse lines = samples :=
  ⟨stream_data_eq_filterMap parse lines,
   fun samples h => stream_data_all_decoded parse lines samples h⟩

/-- Witness for `claim_C4`: the two valid event lines `data: 1` and
`data: 2` decode (under the concrete integer payload parser) to the samples
`1, 2` in arrival order and count. -/
theorem claim_C4_witness :
    ["data: 1".toList, "data: 2".toList].map (decodeLine parseNatPayload) =
      ([1, 2] : List Nat).map some ∧
    stream_data parseNatPayload ["data: 1".toList, "data: 2".toList] =
      [1, 2] :=
  ⟨by decide,
   (claim_C4 Nat parseNatPayload ["data: 1".toList, "data: 2".toList]).2
     [1, 2] (by decide)⟩

/-- Claim C5 (confirmed).  A line whose payload fails to parse is skipped
silently: removing it from the input leaves the decoder's output on every
other line unchanged, so it yields no sample, raises nothing, does not end
the sequence, and all later lines decode exactly as without it. -/
theorem claim_C5 (J : Type) (parse : List Char → Option J)
    (pre post : List (List Char)) (bad : List Char)
    (h : decodeLine parse bad = none) :
    stream_data parse (pre ++ bad :: post) = stream_data parse (pre ++ post) := by
  induction pre with
  | nil => simp [stream_data, h]
  | cons l rest ih =>
    simp only [List.cons_append, stream_data]
    cases decodeLine parse l with
    | none => exact ih
    | some j => simp [ih]

/-- Witness for `claim_C5`: the malformed event line `data: {not json`
(whose payload is not valid JSON, so the parser rejects it) is dropped from
between two valid lines without affecting their decoding. -/
theorem claim_C5_witness :
    decodeLine parseNatPayload "data: \x7bnot json".toList = none ∧
    stream_data parseNatPayload
        ["data: 1".toList, "data: \x7bnot json".toList, "data: 2".toList] =
      stream_data parseNatPayload ["data: 1".toList, "data: 2".toList] :=
  ⟨by decide,
   claim_C5 Nat parseNatPayload ["data: 1".toList] ["data: 2".toList]
     "data: \x7bnot json".toList (by decide)⟩

/-! ## The decoder in the presence of transport failures -/

/-- Claim C6 (confirmed).  When the transport raises after delivering some
lines, the generator's `except` branch reports the exception to the user as
the visible message `Stream error: …` and the sample sequence ends: the run
yields exactly the samples decoded from the lines delivered before the
failure, and nothing after the failure — whatever the transport would have
carried later (`post` is arbitrary) — is consumed, i.e. the failure is
terminal and not retried. -/
theorem claim_C6 (J : Type) (parse : List Char → Option J)
    (pre : List NetEvent) (m : List Char) (post : List NetEvent)
    (h : ∀ e ∈ pre, e.errMsg = none) :
    streamRun parse (pre ++ NetEvent.err m :: post) =
      (stream_data parse (pre.filterMap NetEvent.lineOf),
       some (streamErrorMsg m)) := by
  induction pre with
  | nil => rfl
  | cons e rest ih =>
    have he : e.errMsg = none := h e (List.mem_cons_self e rest)
    have hrest : ∀ e ∈ rest, NetEvent.errMsg e = none := fun e' he' =>
      h e' (List.mem_cons_of_mem e he')
    cases e with
    | err m' => simp [NetEvent.errMsg] at he
    | line l =>
      simp only [List.cons_append, streamRun, List.filterMap_cons,
        NetEvent.lineOf, stream_data]
      cases decodeLine parse l with
      | none => exact ih hrest
      | some j => simp [ih hrest]

/-- Witness for `claim_C6`: one valid line is delivered, then the transport
times out; the run yields the one decoded sample, reports
`Stream error: timeout`, and ignores the line the transport would have
delivered afterwards. -/
theorem claim_C6_witness :
    streamRun parseNatPayload
        [NetEvent.line "data: 7".toList, NetEvent.err "timeout".toList,
         NetEvent.line "data: 9".toList] =
      ([7], some (streamErrorMsg "timeout".toList)) :=
  (claim_C6 Nat parseNatPayload [NetEvent.line "data: 7".toList]
      "timeout".toList [NetEvent.line "data: 9".toList]
      (by decide)).trans (by decide)

/-- Claim C9 (confirmed).  The generator is total with respect to errors: on
every transport input it returns an ordinary value — the samples decoded
from the lines delivered before the first failure, paired with the reported
message of exactly that first failure (or no message when no failure
occurs).  Every failure is absorbed into this error component; none is
propagated to the caller, and the error branch is the only exit on failure. -/
theorem claim_C9 (J : Type) (parse : List Char → Option J)
    (events : List NetEvent) :
    (streamRun parse events).2 =
      (events.findSome? NetEvent.errMsg).map streamErrorMsg ∧
    (streamRun parse events).1 =
      stream_data parse
        ((events.takeWhile (fun e => e.errMsg.isNone)).filterMap
          NetEvent.lineOf) := by
  induction events with
  | nil => exact ⟨rfl, rfl⟩
  | cons e rest ih =>
    cases e with
    | err m =>
      simp [streamRun, List.findSome?_cons, NetEvent.errMsg,
        List.takeWhile_cons, stream_data]
    | line l =>
      simp only [streamRun, List.findSome?_cons, NetEvent.errMsg,
        List.takeWhile_cons, Option.isNone_none, if_pos, List.filterMap_cons,
        NetEvent.lineOf, stream_data]
      cases hd : decodeLine parse l with
      | none => simpa [hd] using ih
      | some j => simpa [hd] using ih

/-! ## Helper lemmas about the append-then-trim window step -/

theorem appendTrim_eq_drop_append {α : Type} (N : Nat) (w : List α) (x : α) :
    ∃ k, k ≤ w.length ∧ appendTrim N w x = w.drop k ++ [x] := by
  by_cases hN : N = 0
  · subst hN
    exact ⟨0, Nat.zero_le _, by simp [appendTrim, ilocLast]⟩
  · by_cases hlen : w.length + 1 > N
    · refine ⟨w.length + 1 - N, by omega, ?_⟩
      have hcond : (w ++ [x]).length > N := by simp; omega
      have hdrop : (w ++ [x]).length - N = w.length + 1 - N := by simp
      simp only [appendTrim, if_pos hcond, ilocLast, if_neg hN, hdrop]
      exact List.drop_append_of_le_length (by omega)
    · refine ⟨0, Nat.zero_le _, ?_⟩
      simp only [appendTrim, List.drop_zero]
      rw [if_neg (by simp; omega)]

theorem foldl_appendTrim_eq_drop {α : Type} (N : Nat) (hN : 0 < N) :
    ∀ (xs w : List α), w.length ≤ N →
      List.foldl (appendTrim N) w xs = (w ++ xs).drop ((w ++ xs).length - N) := by
  intro xs
  induction xs with
  | nil =>
    intro w hw
    have : w.length - N = 0 := by omega
    simp [this]
  | cons x rest ih =>
    intro w hw
    rw [List.foldl_cons]
    by_cases hlen : w.length + 1 ≤ N
    · have hstep : appendTrim N w x = w ++ [x] := by
        simp only [appendTrim]
        rw [if_neg (by simp; omega)]
      rw [hstep, ih (w ++ [x]) (by simp; omega)]
      simp
    · have hwN : w.length = N := by omega
      have hcond : (w ++ [x]).length > N := by simp; omega
      have hstep : appendTrim N w x = (w ++ [x]).drop 1 := by
        have h1 : (w ++ [x]).length - N = 1 := by simp; omega
        simp only [appendTrim, if_pos hcond, ilocLast, if_neg (by omega : ¬ N = 0), h1]
      have hlen' : ((w ++ [x]).drop 1).length ≤ N := by simp; omega
      rw [hstep, ih _ hlen']
      have hsplit : (w ++ [x]).drop 1 ++ rest = ((w ++ [x]) ++ rest).drop 1 :=
        (List.drop_append_of_le_length (by simp)).symm
      rw [hsplit, List.drop_drop]
      have hL : (((w ++ [x]) ++ rest).drop 1).length = w.length + rest.length := by
        simp
      rw [hL]
      have hidx : w.length + rest.length - N = rest.length := by omega
      have hidx2 : (w ++ x :: rest).length - N = 1 + rest.length := by simp; omega
      rw [hidx, hidx2]
      have : (w ++ [x]) ++ rest = w ++ x :: rest := by simp
      rw [this]

/-- Claim C1 (confirmed).  For every positive window bound `N` (the
`MAX_POINTS` slider only produces values in `[100, 1000]`) and every ordered
sequence of more than `N` decoded samples appended one at a time with the
append-then-trim step, the resulting window is exactly the suffix of the
last `N` samples in their arrival order, of length exactly `N`. -/
theorem claim_C1 (α : Type) (N : Nat) (xs : List α) (h0 : 0 < N)
    (hM : N < xs.length) :
    List.foldl (appendTrim N) [] xs = xs.drop (xs.length - N) ∧
    (List.foldl (appendTrim N) [] xs).length = N := by
  have h := foldl_appendTrim_eq_drop N h0 xs []
    (by simp : ([] : List α).length ≤ N)
  simp only [List.nil_append] at h
  refine ⟨h, ?_⟩
  rw [h, List.length_drop]
  omega

/-- Witness for `claim_C1`: the spec's scenario.  Feeding the three decoded
events `timestamp 1, T 50`, `timestamp 2, T 52`, `timestamp 3, T 55` with
`maxSamples = 2` leaves the window holding exactly the last two events in
arrival order. -/
theorem claim_C1_witness :
    List.foldl (appendTrim 2) []
        [scenarioSample 1 50, scenarioSample 2 52, scenarioSample 3 55] =
      [scenarioSample 2 52, scenarioSample 3 55] := by
  rw [(claim_C1 Sample 2
    [scenarioSample 1 50, scenarioSample 2 52, scenarioSample 3 55]
    (by decide) (by decide)).1]
  decide

/-- Claim C3 (confirmed).  For every positive window bound and every arrival
sequence, the window reached by iterating the append-then-trim step from the
empty frame has length at most `maxSamples` and is a suffix of the arrival
sequence — samples appear in exactly their arrival order, never reordered,
never deduplicated, since the step only appends at the tail end and drops
from the head. -/
theorem claim_C3 (α : Type) (N : Nat) (xs : List α) (h0 : 0 < N) :
    (List.foldl (appendTrim N) [] xs).length ≤ N ∧
    ∃ k, List.foldl (appendTrim N) [] xs = xs.drop k := by
  have h := foldl_appendTrim_eq_drop N h0 xs []
    (by simp : ([] : List α).length ≤ N)
  simp only [List.nil_append] at h
  constructor
  · rw [h, List.length_drop]; omega
  · exact ⟨_, h⟩

/-- Witness for `claim_C3` at the concrete bound 1 and a three-sample run. -/
theorem claim_C3_witness :
    (List.foldl (appendTrim 1) ([] : List Nat) [10, 20, 30]).length ≤ 1 ∧
    ∃ k, List.foldl (appendTrim 1) ([] : List Nat) [10, 20, 30] =
      [10, 20, 30].drop k :=
  claim_C3 Nat 1 [10, 20, 30] (by decide)

theorem foldl_appendTrim_drop_exists {α : Type} (N : Nat) :
    ∀ (ys w : List α), ∃ j,
      List.foldl (appendTrim N) w ys = (w ++ ys).drop j := by
  intro ys
  induction ys with
  | nil => intro w; exact ⟨0, by simp⟩
  | cons y rest ih =>
    intro w
    obtain ⟨k, hk, hstep⟩ := appendTrim_eq_drop_append N w y
    obtain ⟨j, hj⟩ := ih (appendTrim N w y)
    refine ⟨k + j, ?_⟩
    rw [List.foldl_cons, hj, hstep]
    have h1 : (w.drop k ++ [y]) ++ rest = (w ++ y :: rest).drop k := by
      rw [List.append_assoc, List.drop_append_of_le_length hk]
      rfl
    rw [h1, List.drop_drop]

/-- Claim C10 (confirmed).  Each iteration changes the window only by
appending the one new row at the tail and evicting some rows (possibly none)
from the oldest end: the post-step window is `w.drop k ++ [x]` for some
`k ≤ len w`, so every surviving row is unchanged in content and relative
position.  Moreover any continuation of the run from the post-step window is
a suffix of that window followed by the future samples, so a row absent from
the window — in particular one once evicted — never reappears in a later
state. -/
theorem claim_C10 (α : Type) (N : Nat) (w : List α) (x : α) :
    (∃ k, k ≤ w.length ∧ appendTrim N w x = w.drop k ++ [x]) ∧
    ∀ ys : List α, ∃ j,
      List.foldl (appendTrim N) (appendTrim N w x) ys =
        (appendTrim N w x ++ ys).drop j :=
  ⟨appendTrim_eq_drop_append N w x,
   fun ys => foldl_appendTrim_drop_exists N ys (appendTrim N w x)⟩

/-! ## The 3×3 render grid -/

/-- Claim C7 (confirmed).  Every render produces the nine panels in the
fixed order `T, pH, Kappa, Mu, Tau, Q_in, Q_out, P, dTdt`; panel `i` has its
legend label equal to the channel name, y-limits exactly the channel's fixed
`(min, max)` pair of the static table — T: 0–80, pH: 6.0–7.2,
Kappa: 4.0–5.5, Mu: 1.4–2.4, Tau: 0.0–1.5, Q_in: 0.0–2.0, Q_out: 0.0–2.0,
P: 0.8–1.6, dTdt: −1.0–1.0 — its y-data the channel's column and its x-data
the `timestamp` column, with grid lines on and the title equal to the legend.
The equations hold for every frame `df`, so the limits never depend on the
data range, and the range table is a constant definition, never mutated. -/
theorem claim_C7 (df : List Sample) :
    (mkGrid df).map (fun p => (p.legend, p.ylo, p.yhi)) =
      [("T", (0 : ℚ), (80 : ℚ)), ("pH", 6.0, 7.2), ("Kappa", 4.0, 5.5),
       ("Mu", 1.4, 2.4), ("Tau", 0.0, 1.5), ("Q_in", 0.0, 2.0),
       ("Q_out", 0.0, 2.0), ("P", 0.8, 1.6), ("dTdt", -1.0, 1.0)] ∧
    (mkGrid df).map Panel.ydata =
      [df.map Sample.T, df.map Sample.pH, df.map Sample.Kappa,
       df.map Sample.Mu, df.map Sample.Tau, df.map Sample.Q_in,
       df.map Sample.Q_out, df.map Sample.P, df.map Sample.dTdt] ∧
    (mkGrid df).map Panel.xdata = List.replicate 9 (df.map Sample.timestamp) ∧
    (mkGrid df).map Panel.grid = List.replicate 9 true ∧
    (mkGrid df).map Panel.title = (mkGrid df).map Panel.legend := by
  refine ⟨rfl, ?_, rfl, rfl, rfl⟩
  simp only [mkGrid, SENSORS, Y_RANGES, List.map_cons, List.map_nil, mkPanel]
  refine congrArg₂ _ ?_ (congrArg₂ _ ?_ (congrArg₂ _ ?_ (congrArg₂ _ ?_
    (congrArg₂ _ ?_ (congrArg₂ _ ?_ (congrArg₂ _ ?_ (congrArg₂ _ ?_
      (congrArg₂ _ ?_ rfl)))))))) <;>
    exact List.map_congr_left (fun r _ => rfl)

/-! ## The live plotting loop -/

theorem scanl_eq_cons_drop {α : Type} (f : List α → α → List α)
    (w : List α) (rest : List α) :
    List.scanl f w rest = w :: (List.scanl f w rest).drop 1 := by
  cases rest with
  | nil => rfl
  | cons a l => rw [List.scanl_cons]; rfl

/-- Claim C8 (confirmed).  For every decoded sample the loop performs, in
this order and exactly once per sample: append, trim to `maxSamples`, render
the grid from the trimmed window, pause for the refresh interval, then move
to the next sample.  The emitted trace is the concatenation, over the
samples in arrival order paired with the successive post-trim windows
(`scanl` of the append-then-trim step), of exactly the four actions
`appendRow / trimTo / render / pause`; and the frame left in session state
is the fold of the step over all samples.  No step is skipped, duplicated or
reordered. -/
theorem claim_C8 (α : Type) (maxPoints : Nat) (refresh : ℚ)
    (df0 samples : List α) :
    (liveLoop maxPoints refresh df0 samples).1 =
      (samples.zip
          ((List.scanl (appendTrim maxPoints) df0 samples).drop 1)).flatMap
        (fun p => [LoopAction.appendRow p.1, LoopAction.trimTo maxPoints,
                   LoopAction.render p.2, LoopAction.pause refresh]) ∧
    (liveLoop maxPoints refresh df0 samples).2 =
      List.foldl (appendTrim maxPoints) df0 samples := by
  induction samples generalizing df0 with
  | nil => exact ⟨rfl, rfl⟩
  | cons s rest ih =>
    obtain ⟨ih1, ih2⟩ := ih (appendTrim maxPoints df0 s)
    constructor
    · rw [List.scanl_cons]
      have hdrop : (([df0] ++
          List.scanl (appendTrim maxPoints) (appendTrim maxPoints df0 s)
            rest)).drop 1 =
          List.scanl (appendTrim maxPoints) (appendTrim maxPoints df0 s)
            rest := rfl
      rw [hdrop,
        scanl_eq_cons_drop (appendTrim maxPoints) (appendTrim maxPoints df0 s)
          rest,
        List.zip_cons_cons, List.flatMap_cons]
      show LoopAction.appendRow s :: LoopAction.trimTo maxPoints ::
          LoopAction.render (appendTrim maxPoints df0 s) ::
          LoopAction.pause refresh ::
          (liveLoop maxPoints refresh (appendTrim maxPoints df0 s) rest).1 = _
      rw [ih1]
      rfl
    · exact ih2
